import Mathlib

/-!
Shallow embedding of `src/command/cohost2autost.rs` (and the parts of
`src/lib.rs` it uses), the post-conversion core of the autost repository.

Modelling conventions:

* Rust `usize` indices become `Nat`; the only subtraction that occurs
  (`end - 1` in the span-consumption guard) is guarded by the discard loop,
  which removes every span with `end <= i` before the guard runs, so `Nat`
  truncation agrees with `usize` behaviour on all reachable states.
* File output (`output.write_all`) is modelled as a list of `OutputEvent`s,
  one event per `write_all` call: the rendered fragments keep their source
  (AST override / markdown / image template / ask template) as a constructor
  tag, and the literal `b"\x6e\x6e"` separator write is the event `sep`.
* Fallible Rust functions returning `eyre::Result` become `Except ConvertError`.
* External collaborators (comrak markdown rendering, html5ever parse and
  serialize, askama templates, serde JSON parsing) are black boxes: they are
  either parameters of the functions that call them or symbolic payloads of
  the corresponding `OutputEvent`.
-/

namespace Autost

/-- Errors produced by the conversion pipeline (`eyre::Result` error side).
Each constructor corresponds to one `bail!` / propagated failure in the
source. -/
inductive ConvertError
  | expectedRedirect (url : String)
  | redirectNoSlashes (url : String)
  | directoryEmpty (path : String)
  | readError (path : String)
  | cacheFailed (id : String)
  | otherError (message : String)
deriving DecidableEq, Repr

/-- `Attachment` from `autost::cohost`: a discriminated union of an image
(with id, alt text and dimensions) and a forward-compatible unknown variant
(raw fields abstracted away). -/
inductive Attachment
  | Image (attachmentId altText : String) (width height : Nat)
  | Unknown
deriving DecidableEq, Repr

/-- `Block` from `autost::cohost`: the ordered native content units of a
post. `AttachmentRow` nests further blocks (each expected to be an
`Attachment` block). The unknown variant's raw fields are abstracted away. -/
inductive Block
  | Markdown (content : String)
  | Attachment (attachment : Attachment)
  | Ask (askingProject : Option String) (content : String)
  | AttachmentRow (attachments : List Block)
  | Unknown

/-- IDL-typed property values carried by `Ast` element nodes. -/
inductive IdlValue
  | bool (b : Bool)
  | num (n : Nat)
  | str (s : String)
deriving DecidableEq, Repr

/-- `Ast` from `autost::cohost`: the cohost `astMap` tree — Root, Element
(tag name, IDL properties, children) or Text. -/
inductive Ast
  | root (children : List Ast)
  | element (tagName : String) (properties : List (String × IdlValue)) (children : List Ast)
  | text (value : String)

/-- One parsed span of a post's `astMap`: the already-deserialized `Ast`
value (`serde_json::from_str` is a black-box collaborator, so the model
works with the parsed tree) and the half-open block interval
`[startIndex, endIndex)`. -/
structure SpanRec where
  ast : Ast
  startIndex : Nat
  endIndex : Nat

/-- The fields of `Post` that drive the merge engine: the ordered block
list and the `astMap` spans. The metadata fields (id, handle, headline,
timestamps, tags, share tree) feed only the askama header template, which
the model records as the opaque `OutputEvent.metaHeader`. -/
structure Post where
  blocks : List Block
  astMapSpans : List SpanRec

/-- One `output.write_all` call of `convert_single_chost`, tagged by which
source-code write performed it. Fragment payloads are the strings handed to
`write_all` (for the image template, the template's field values, since the
askama template itself is a fixed collaborator). -/
inductive OutputEvent
  | metaHeader
  | astFragment (html : String)
  | markdownFragment (html : String)
  | imgFragment (dataCohostSrc thumbSrc src alt : String) (width height : Nat)
  | askFragment (author : Option String) (html : String)
  | sep
deriving DecidableEq, Repr

/-- Modelled from the spec: `autost::cohost::attachment_id_to_url` is not
under `src/`; the spec describes "a canonical remote-attachment URL format
mapping bijectively to an attachment id", and the repository's own tests
spell it out as `https://cohost.org/rc/attachment-redirect/<id>`. -/
def attachment_id_to_url (id : String) : String :=
  "https://cohost.org/rc/attachment-redirect/" ++ id

/-- Modelled from the spec: `autost::cohost::attachment_url_to_id` is not
under `src/`; it is the partial inverse of `attachment_id_to_url` on the
canonical URL format shown in the repository's tests. Character-level
prefix matching keeps the definition kernel-evaluable. -/
def attachment_url_to_id (url : String) : Option String :=
  let base := "https://cohost.org/rc/attachment-redirect/"
  if List.isPrefixOf base.data url.data then
    some (String.mk (url.data.drop base.data.length))
  else none

/-- The `ConvertChostContext` trait of the source: the two attachment-cache
operations the merge engine calls, plus the two fragment pipelines it
invokes. `processAstFragment` stands for
`process_chost_fragment(process_ast ast, context)` and `renderMarkdownBlock`
for `process_chost_fragment(parse(render_markdown md), context)`; both
compose black-box collaborators (html5ever, comrak, the serializer) with the
rewrite passes, so the merge-engine model takes them as parameters. -/
structure ConvertChostContext where
  cache_attachment_image : String → Except ConvertError String
  cache_attachment_thumb : String → Except ConvertError String
  processAstFragment : Ast → Except ConvertError String
  renderMarkdownBlock : String → Except ConvertError String

/-- Lexicographic `(startIndex, endIndex)` key order used by
`spans.sort_by_key(|(_ast, start, end)| (*start, *end))`. -/
def spanKeyLe (s t : SpanRec) : Prop :=
  s.startIndex < t.startIndex ∨
    (s.startIndex = t.startIndex ∧ s.endIndex ≤ t.endIndex)

instance : DecidablePred fun p : SpanRec × SpanRec => spanKeyLe p.1 p.2 := by
  intro p; unfold spanKeyLe; infer_instance

instance (s t : SpanRec) : Decidable (spanKeyLe s t) := by
  unfold spanKeyLe; infer_instance

/-- Stable insertion of a span into an already sorted list: a span moves
before `t` only when its key is strictly smaller, preserving the relative
order of equal keys exactly as Rust's stable `sort_by_key` does. -/
def insertSpan (s : SpanRec) : List SpanRec → List SpanRec
  | [] => [s]
  | t :: ts => if spanKeyLe t s then t :: insertSpan s ts else s :: t :: ts

/-- `spans.sort_by_key(|(_ast, start, end)| (*start, *end))`: stable sort by
the `(start, end)` key, modelled as insertion sort. -/
def sortSpans : List SpanRec → List SpanRec
  | [] => []
  | s :: ss => insertSpan s (sortSpans ss)

/-- The discard loop
`while spans.first().map_or(false, |(_ast, _start, end)| i >= *end) { spans.remove(0); }`:
drop spans from the front of the queue while the front span's `end <= i`. -/
def dropPassedSpans (i : Nat) : List SpanRec → List SpanRec
  | [] => []
  | s :: rest => if s.endIndex ≤ i then dropPassedSpans i rest else s :: rest

/-- The `handle_attachment` closure: an `Image` renders the
`CohostImgTemplate` (fields in source order: `data_cohost_src` from
`attachment_id_to_url`, then the thumb cache call, then the full-image cache
call), an unknown attachment kind only warns and emits nothing. -/
def handle_attachment (context : ConvertChostContext) :
    Attachment → Except ConvertError (List OutputEvent)
  | .Image attachmentId altText width height => do
    let dataCohostSrc := attachment_id_to_url attachmentId
    let thumbSrc ← context.cache_attachment_thumb attachmentId
    let src ← context.cache_attachment_image attachmentId
    .ok [.imgFragment dataCohostSrc thumbSrc src altText width height]
  | .Unknown => .ok []

/-- The `Block::AttachmentRow` arm's inner loop: each nested block that is an
`Attachment` goes through `handle_attachment`; any other shape only warns. -/
def handle_attachment_row (context : ConvertChostContext) :
    List Block → Except ConvertError (List OutputEvent)
  | [] => .ok []
  | .Attachment attachment :: rest => do
    let events ← handle_attachment context attachment
    let more ← handle_attachment_row context rest
    .ok (events ++ more)
  | _ :: rest => handle_attachment_row context rest

/-- The native-block dispatch of the merge loop (the `match block` at the
bottom of the loop body). The `Markdown` and `Ask` arms `continue` past the
trailing `output.write_all(b"\x6e\x6e")`, so they contribute no `sep` event;
the `Attachment`, `AttachmentRow` and `Unknown` arms fall through to that
write, so their contribution ends with `sep`. -/
def processNativeBlock (context : ConvertChostContext) :
    Block → Except ConvertError (List OutputEvent)
  | .Markdown content => do
    let html ← context.renderMarkdownBlock content
    .ok [.markdownFragment html]
  | .Attachment attachment => do
    let events ← handle_attachment context attachment
    .ok (events ++ [.sep])
  | .Ask askingProject content => do
    let html ← context.renderMarkdownBlock content
    .ok [.askFragment askingProject html]
  | .AttachmentRow attachments => do
    let events ← handle_attachment_row context attachments
    .ok (events ++ [.sep])
  | .Unknown => .ok [.sep]

/-- The block/span merge loop of `convert_single_chost`
(`for (i, block) in post.blocks.into_iter().enumerate()`), carrying the
current block index `i` and the sorted span queue. Per iteration: run the
discard loop; then, if the front span's `end - 1` equals `i`, consume it and
emit its compiled-and-rewritten fragment; else if the front span's interval
contains `i`, skip the block; otherwise dispatch on the native block. -/
def processBlocksFrom (context : ConvertChostContext) :
    List Block → Nat → List SpanRec → Except ConvertError (List OutputEvent)
  | [], _, _ => .ok []
  | block :: blocks, i, spans0 =>
    let spans := dropPassedSpans i spans0
    match spans with
    | s :: rest =>
      if i = s.endIndex - 1 then do
        let html ← context.processAstFragment s.ast
        let events ← processBlocksFrom context blocks (i + 1) rest
        .ok (.astFragment html :: events)
      else if s.startIndex ≤ i ∧ i < s.endIndex then
        processBlocksFrom context blocks (i + 1) (s :: rest)
      else do
        let events ← processNativeBlock context block
        let more ← processBlocksFrom context blocks (i + 1) (s :: rest)
        .ok (events ++ more)
    | [] => do
      let events ← processNativeBlock context block
      let more ← processBlocksFrom context blocks (i + 1) []
      .ok (events ++ more)

/-- `convert_single_chost`: writes the rendered metadata header and a blank
line, sorts the parsed spans by `(start, end)`, then runs the merge loop
from block index 0. The returned event list is the sequence of `write_all`
calls performed on the output file. -/
def convert_single_chost (context : ConvertChostContext) (post : Post) :
    Except ConvertError (List OutputEvent) := do
  let spans := sortSpans post.astMapSpans
  let events ← processBlocksFrom context post.blocks 0 spans
  .ok (.metaHeader :: .sep :: events)

/-!
## HTML tree and the two rewrite passes of `process_chost_fragment`

The `markup5ever_rcdom` node graph (shared mutable `Rc` nodes) is modelled
as an immutable tree. Attributes are `(name, value)` pairs in document
order; the html5ever tendril/QualName machinery is flattened to plain
strings. Comment/doctype nodes are irrelevant to both passes (they have no
attributes and no children) and are folded into `text`.
-/

/-- A node of the parsed HTML tree (`markup5ever_rcdom::Node`). -/
inductive DomNode
  | element (name : String) (attrs : List (String × String)) (children : List DomNode)
  | text (value : String)
  | document (children : List DomNode)

/-- `autost::dom::attr_value` / the read half of `find_attr_mut`: value of
the first attribute with the given name. -/
def findAttrValue : List (String × String) → String → Option String
  | [], _ => none
  | (n, v) :: rest, name => if n = name then some v else findAttrValue rest name

/-- The write half of `find_attr_mut`: replace the value of the first
attribute with the given name, leaving everything else in place. -/
def setFirstAttr : List (String × String) → String → String → List (String × String)
  | [], _, _ => []
  | (n, v) :: rest, name, newValue =>
    if n = name then (n, newValue) :: rest
    else (n, v) :: setFirstAttr rest name newValue

/-- The attribute mutation the first (`Traverse`) pass of
`process_chost_fragment` performs on one element's attribute list: only
`<img src>` and `<a href>` are candidates; if the candidate attribute is
present and `attachment_url_to_id` recognises its value, the value is
replaced by the full-variant cache URL and the original is appended as
`data-cohost-src` / `data-cohost-href`; every `<img>` additionally gets
`loading="lazy"` appended. -/
def rewriteElementAttrs (cache_attachment_image : String → Except ConvertError String)
    (urlToId : String → Option String) (name : String)
    (attrs : List (String × String)) : Except ConvertError (List (String × String)) := do
  let elementAttrNames : Option (String × String) :=
    if name = "img" then some ("img", "src")
    else if name = "a" then some ("a", "href")
    else none
  match elementAttrNames with
  | none => .ok attrs
  | some (elementName, attrName) => do
    let attrs ← match findAttrValue attrs attrName with
      | some oldUrl =>
        match urlToId oldUrl with
        | some id => do
          let newUrl ← cache_attachment_image id
          .ok (setFirstAttr attrs attrName newUrl ++ [("data-cohost-" ++ attrName, oldUrl)])
        | none => .ok attrs
      | none => .ok attrs
    if elementName = "img" then .ok (attrs ++ [("loading", "lazy")])
    else .ok attrs

mutual

/-- First pass of `process_chost_fragment`: `Traverse` visits every node of
the tree and applies `rewriteElementAttrs` to each element; child lists and
non-element nodes are untouched. -/
def rewriteUrlsNode (cache_attachment_image : String → Except ConvertError String)
    (urlToId : String → Option String) : DomNode → Except ConvertError DomNode
  | .element name attrs children => do
    let attrs2 ← rewriteElementAttrs cache_attachment_image urlToId name attrs
    let children2 ← rewriteUrlsChildren cache_attachment_image urlToId children
    .ok (.element name attrs2 children2)
  | .text value => .ok (.text value)
  | .document children => do
    let children2 ← rewriteUrlsChildren cache_attachment_image urlToId children
    .ok (.document children2)

/-- `rewriteUrlsNode` mapped over a child list, left to right. -/
def rewriteUrlsChildren (cache_attachment_image : String → Except ConvertError String)
    (urlToId : String → Option String) : List DomNode → Except ConvertError (List DomNode)
  | [] => .ok []
  | node :: rest => do
    let node2 ← rewriteUrlsNode cache_attachment_image urlToId node
    let rest2 ← rewriteUrlsChildren cache_attachment_image urlToId rest
    .ok (node2 :: rest2)

end

/-- The canonical profile URL attached to an expanded mention. -/
def mention_href (handle : String) : String := "https://cohost.org/" ++ handle

mutual

/-- Second pass of `process_chost_fragment` (the `Mention` queue loop),
expressed on one node from the queue: its child list is rewritten by
`expandMentionsChildren`. In the source the loop mutates each dequeued
node's child list in place; since every kept child is enqueued exactly once
and replaced children never are, the net effect on the tree is this
recursion. -/
def expandMentionsNode : DomNode → DomNode
  | .element name attrs children => .element name attrs (expandMentionsChildren children)
  | .text value => .text value
  | .document children => .document (expandMentionsChildren children)

/-- One dequeued node's child loop: an element named `Mention` with a
`handle` attribute is replaced by a fresh `<a>` whose only attribute is the
profile `href` and whose children are the mention's children moved verbatim
— the replacement is not enqueued, so those children are not revisited by
this pass. Every other child is kept as is and enqueued (its own child list
is rewritten when it is dequeued). -/
def expandMentionsChildren : List DomNode → List DomNode
  | [] => []
  | .element name attrs children :: rest =>
    (if name = "Mention" then
      match findAttrValue attrs "handle" with
      | some handle => DomNode.element "a" [("href", mention_href handle)] children
      | none => DomNode.element name attrs (expandMentionsChildren children)
    else DomNode.element name attrs (expandMentionsChildren children))
      :: expandMentionsChildren rest
  | kid :: rest => expandMentionsNode kid :: expandMentionsChildren rest

end

/-- `process_chost_fragment`: the attachment-URL rewrite pass followed by
the mention-expansion pass over the same tree. Serialization of the final
tree is a black-box collaborator, so the model returns the tree itself. -/
def process_chost_fragment (cache_attachment_image : String → Except ConvertError String)
    (dom : DomNode) : Except ConvertError DomNode := do
  let dom2 ← rewriteUrlsNode cache_attachment_image attachment_url_to_id dom
  .ok (expandMentionsNode dom2)

/-!
## Filesystem and network model for the attachment cache

The cache functions touch the filesystem (`read_dir`, `File::open`,
`read_to_end`, `create_dir_all`, `File::create` + `write_all`) and the
network (a redirect-only `HEAD` probe and a body `GET`). The filesystem is
an explicit state; the network is a pair of pure oracle functions, and every
function returns the list of requests it issued alongside its
`Except`-wrapped result, so "performs no network request" is a statement
about that list.
-/

/-- What the filesystem model knows about one stored file: `File::open` can
fail (`unopenable`), it can open but `read_to_end` can fail (`unreadable`),
or it holds bytes. -/
inductive FileState
  | unopenable
  | unreadable
  | content (bytes : List Nat)
deriving DecidableEq, Repr

/-- Filesystem state: existing directories with their entry listing (the
order `read_dir` yields them in), and file states keyed by path. Lookup
takes the first match, so updates are modelled by prepending. -/
structure FsState where
  dirs : List (String × List String)
  files : List (String × FileState)
deriving DecidableEq, Repr

/-- `read_dir`: the listing of a directory, or `none` when it errors
(directory absent). -/
def readDir (fs : FsState) (path : String) : Option (List String) :=
  fs.dirs.lookup path

/-- `File::open` followed by `read_to_end`, as one lookup: `none` means the
path is unknown to the model (open fails). -/
def openFileState (fs : FsState) (path : String) : Option FileState :=
  fs.files.lookup path

/-- `create_dir_all`: a no-op when the directory exists, otherwise the
directory appears with an empty listing. -/
def createDirAll (fs : FsState) (path : String) : FsState :=
  if (fs.dirs.lookup path).isSome then fs
  else { fs with dirs := (path, []) :: fs.dirs }

/-- `File::create(...).write_all(...)` inside an existing directory: the
file's bytes are (re)placed and its name joins the directory listing if it
was not already listed. -/
def writeFile (fs : FsState) (dir name : String) (bytes : List Nat) : FsState :=
  let filePath := dir ++ "/" ++ name
  { dirs := fs.dirs.map fun entry =>
      if entry.1 = dir then
        (entry.1, if entry.2.contains name then entry.2 else entry.2 ++ [name])
      else entry,
    files := (filePath, .content bytes) :: fs.files }

/-- One network request issued by the cache: the redirect-only `HEAD` probe
or the body `GET` download. -/
inductive NetReq
  | head (url : String)
  | get (url : String)
deriving DecidableEq, Repr

/-- The network oracle: `probe url` is the `Location` header of the `HEAD`
response (`none` when the response carries no redirect), `download url` is
the `GET` body. -/
structure Network where
  probe : String → Option String
  download : String → List Nat

/-- `urlencoding::decode` on the percent-encoded filename, character level:
`%` followed by two hex digits becomes the denoted code point, anything
else passes through. -/
def percentDecodeChars : List Char → List Char
  | '%' :: a :: b :: rest =>
    match hexCharToNat a, hexCharToNat b with
    | some ha, some hb => Char.ofNat (16 * ha + hb) :: percentDecodeChars rest
    | _, _ => '%' :: percentDecodeChars (a :: b :: rest)
  | c :: rest => c :: percentDecodeChars rest
  | [] => []
where
  hexCharToNat (c : Char) : Option Nat :=
    if '0' ≤ c ∧ c ≤ '9' then some (c.toNat - '0'.toNat)
    else if 'a' ≤ c ∧ c ≤ 'f' then some (c.toNat - 'a'.toNat + 10)
    else if 'A' ≤ c ∧ c ≤ 'F' then some (c.toNat - 'A'.toNat + 10)
    else none

/-- String form of `percentDecodeChars`. -/
def percentDecode (s : String) : String := String.mk (percentDecodeChars s.data)

/-- `url.rsplit_once("/")`: split at the last slash, `none` when the string
has no slash. -/
def rsplitOnceSlash : List Char → Option (List Char × List Char)
  | [] => none
  | c :: rest =>
    match rsplitOnceSlash rest with
    | some (pre, post) => some (c :: pre, post)
    | none => if c = '/' then some ([], rest) else none

/-- The miss path of `cached_get_attachment`: probe the canonical URL with
redirects disabled; a response without a `Location` header is a fatal error
(one probe, no retry). Otherwise take the percent-decoded final path
segment of the redirect target as the original filename, apply the optional
transform to the redirect target (not to the filename source), download the
resulting URL and write the body under the id directory. -/
def cached_get_attachment_miss (fs : FsState) (net : Network) (url path : String)
    (transform_redirect_target : Option (String → String)) :
    Except ConvertError (String × FsState) × List NetReq :=
  match net.probe url with
  | none => (.error (.expectedRedirect url), [.head url])
  | some redirectTarget =>
    match rsplitOnceSlash redirectTarget.data with
    | none => (.error (.redirectNoSlashes redirectTarget), [.head url])
    | some (_, encodedFilename) =>
      let originalFilename := percentDecode (String.mk encodedFilename)
      let downloadUrl := match transform_redirect_target with
        | some transform => transform redirectTarget
        | none => redirectTarget
      let bytes := net.download downloadUrl
      let fs2 := writeFile fs path originalFilename bytes
      (.ok (path ++ "/" ++ originalFilename, fs2), [.head url, .get downloadUrl])

/-- `cached_get_attachment`: if the id directory can be listed, lists a
first entry, and that entry's file opens, a successful read is a cache hit
(no network traffic) and a failed read propagates as an error; any failed
`if let` in that chain (directory unlistable, empty, or first entry
unopenable) falls through to the miss path. -/
def cached_get_attachment (fs : FsState) (net : Network) (url path : String)
    (transform_redirect_target : Option (String → String)) :
    Except ConvertError (String × FsState) × List NetReq :=
  match readDir fs path with
  | some (entryName :: _) =>
    let entryPath := path ++ "/" ++ entryName
    match openFileState fs entryPath with
    | some (.content _) => (.ok (entryPath, fs), [])
    | some .unreadable => (.error (.readError entryPath), [])
    | _ => cached_get_attachment_miss fs net url path transform_redirect_target
  | _ => cached_get_attachment_miss fs net url path transform_redirect_target

/-- `cached_attachment_image_url`: the full-variant relative URL is derived
from the id and the first listed file name under the fixed `attachments`
root; the directory must exist and be non-empty. -/
def cached_attachment_image_url (fs : FsState) (id images_path : String) :
    Except ConvertError String :=
  let path := images_path ++ "/" ++ id
  match readDir fs path with
  | none => .error (.readError path)
  | some [] => .error (.directoryEmpty path)
  | some (originalFilename :: _) =>
    .ok ("attachments/" ++ id ++ "/" ++ originalFilename)

/-- `cached_attachment_thumb_url`: as `cached_attachment_image_url`, under
the fixed `attachments/thumbs` root. -/
def cached_attachment_thumb_url (fs : FsState) (id thumbs_path : String) :
    Except ConvertError String :=
  let path := thumbs_path ++ "/" ++ id
  match readDir fs path with
  | none => .error (.readError path)
  | some [] => .error (.directoryEmpty path)
  | some (originalFilename :: _) =>
    .ok ("attachments/thumbs/" ++ id ++ "/" ++ originalFilename)

/-- `cache_attachment_image`: ensure the id directory exists, run
`cached_get_attachment` with no transform, then resolve the relative URL
from the directory listing. -/
def cache_attachment_image (fs : FsState) (net : Network) (id images_path : String) :
    Except ConvertError (String × FsState) × List NetReq :=
  let url := attachment_id_to_url id
  let path := images_path ++ "/" ++ id
  let fs1 := createDirAll fs path
  match cached_get_attachment fs1 net url path none with
  | (.error e, reqs) => (.error e, reqs)
  | (.ok (_, fs2), reqs) =>
    match cached_attachment_image_url fs2 id images_path with
    | .error e => (.error e, reqs)
    | .ok resolvedUrl => (.ok (resolvedUrl, fs2), reqs)

/-- The fixed width query parameter of the thumbnail variant
(`fn thumb(url: &str)` inside `cache_attachment_thumb`). -/
def thumbTransform (url : String) : String := url ++ "?width=675"

/-- `cache_attachment_thumb`: as `cache_attachment_image`, but
`cached_get_attachment` receives the `thumb` transform and the URL is
resolved under the thumbs root. -/
def cache_attachment_thumb (fs : FsState) (net : Network) (id thumbs_path : String) :
    Except ConvertError (String × FsState) × List NetReq :=
  let url := attachment_id_to_url id
  let path := thumbs_path ++ "/" ++ id
  let fs1 := createDirAll fs path
  match cached_get_attachment fs1 net url path (some thumbTransform) with
  | (.error e, reqs) => (.error e, reqs)
  | (.ok (_, fs2), reqs) =>
    match cached_attachment_thumb_url fs2 id thumbs_path with
    | .error e => (.error e, reqs)
    | .ok resolvedUrl => (.ok (resolvedUrl, fs2), reqs)

/-!
## Auxiliary definitions used by the statements and concrete scenarios
-/

/-- A concrete conversion context whose collaborators always succeed:
cache URLs are derived from the id, the AST pipeline yields a fixed
fragment, markdown passes through. Used to evaluate the merge engine on
concrete posts. -/
def testContext : ConvertChostContext where
  cache_attachment_image := fun id => .ok ("images/" ++ id)
  cache_attachment_thumb := fun id => .ok ("thumbs/" ++ id)
  processAstFragment := fun _ => .ok "AST"
  renderMarkdownBlock := fun content => .ok content

/-- Number of AST-override fragments in an output event sequence. -/
def countAstFragments : List OutputEvent → Nat
  | [] => 0
  | .astFragment _ :: rest => countAstFragments rest + 1
  | _ :: rest => countAstFragments rest

/-- Number of blank-line separator writes in an output event sequence. -/
def countSeps : List OutputEvent → Nat
  | [] => 0
  | .sep :: rest => countSeps rest + 1
  | _ :: rest => countSeps rest

mutual

/-- Number of expandable mention elements (`Mention` with a `handle`
attribute) in a tree. -/
def countMentionNode : DomNode → Nat
  | .element name attrs children =>
    (if name = "Mention" ∧ (findAttrValue attrs "handle").isSome = true then 1 else 0)
      + countMentionChildren children
  | .text _ => 0
  | .document children => countMentionChildren children

/-- `countMentionNode` summed over a child list. -/
def countMentionChildren : List DomNode → Nat
  | [] => 0
  | kid :: rest => countMentionNode kid + countMentionChildren rest

end

/-- Filesystem with a populated, readable cache entry for id `id1`. -/
def fsHit : FsState :=
  { dirs := [("root/id1", ["pic.png"])],
    files := [("root/id1/pic.png", .content [1, 2, 3])] }

/-- Network oracle whose probe never yields a `Location` header. -/
def netNone : Network := { probe := fun _ => none, download := fun _ => [] }

/-- Network oracle redirecting every probe to a fixed percent-encoded
target. -/
def netRedir : Network :=
  { probe := fun _ => some "https://static/up%20load/file%20name.png",
    download := fun _ => [9] }

/-- Filesystem with an existing but empty cache directory for id `id1`. -/
def fsEmptyDir : FsState := { dirs := [("troot/id1", [])], files := [] }

/-- Filesystem whose only cache entry lists a file that cannot be opened. -/
def fsUnopenable : FsState :=
  { dirs := [("root/id1", ["pic.png"])], files := [("root/id1/pic.png", .unopenable)] }

/-- Filesystem whose only cache entry opens but fails to read. -/
def fsUnreadable : FsState :=
  { dirs := [("root/id1", ["pic.png"])], files := [("root/id1/pic.png", .unreadable)] }

/-!
## Helper lemmas
-/

theorem dropPassedSpans_cons_of_le {i : Nat} {s : SpanRec} {rest : List SpanRec}
    (h : s.endIndex ≤ i) : dropPassedSpans i (s :: rest) = dropPassedSpans i rest := by
  simp [dropPassedSpans, h]

theorem dropPassedSpans_cons_of_gt {i : Nat} {s : SpanRec} {rest : List SpanRec}
    (h : i < s.endIndex) : dropPassedSpans i (s :: rest) = s :: rest := by
  simp [dropPassedSpans, Nat.not_le.mpr h]

/-- Discard step: a front span whose interval has fully passed is removed
before the block is examined. -/
theorem processBlocksFrom_discard (context : ConvertChostContext) (blocks : List Block)
    (i : Nat) (s : SpanRec) (rest : List SpanRec) (h : s.endIndex ≤ i) :
    processBlocksFrom context blocks i (s :: rest) = processBlocksFrom context blocks i rest := by
  cases blocks with
  | nil => rfl
  | cons b bs =>
    simp only [processBlocksFrom]
    rw [dropPassedSpans_cons_of_le h]

/-- Skip step: when the front span covers `i` strictly before its last
index, the block is skipped and the span queue is unchanged. -/
theorem processBlocksFrom_skip (context : ConvertChostContext) (b : Block)
    (blocks : List Block) (i : Nat) (s : SpanRec) (rest : List SpanRec)
    (h1 : s.startIndex ≤ i) (h2 : i + 1 < s.endIndex) :
    processBlocksFrom context (b :: blocks) i (s :: rest) =
      processBlocksFrom context blocks (i + 1) (s :: rest) := by
  simp only [processBlocksFrom]
  rw [dropPassedSpans_cons_of_gt (by omega)]
  dsimp only
  rw [if_neg (by omega), if_pos ⟨h1, by omega⟩]

/-- Consume step: at the front span's last covered index the span is
dequeued and only its AST fragment is emitted; the native block `b` does
not contribute. -/
theorem processBlocksFrom_consume (context : ConvertChostContext) (b : Block)
    (blocks : List Block) (i : Nat) (s : SpanRec) (rest : List SpanRec)
    (h1 : i = s.endIndex - 1) (h2 : i < s.endIndex) :
    processBlocksFrom context (b :: blocks) i (s :: rest) =
      (do
        let html ← context.processAstFragment s.ast
        let events ← processBlocksFrom context blocks (i + 1) rest
        Except.ok (.astFragment html :: events)) := by
  simp only [processBlocksFrom]
  rw [dropPassedSpans_cons_of_gt h2]
  dsimp only
  rw [if_pos h1]

/-- Native step: with no pending span the block dispatches on its variant
and the loop continues. -/
theorem processBlocksFrom_native (context : ConvertChostContext) (b : Block)
    (blocks : List Block) (i : Nat) :
    processBlocksFrom context (b :: blocks) i [] =
      (do
        let events ← processNativeBlock context b
        let more ← processBlocksFrom context blocks (i + 1) []
        Except.ok (events ++ more)) := rfl

/-!
## Claim theorems
-/

/-- C1: iterating block indices in ascending order, the merge engine first
discards from the front of the span queue every span whose `end <= i`, skips
block `i` when the front span's interval contains `i` with `i < end - 1`,
and at `i = end - 1` consumes the span, emitting its compiled-and-rewritten
AST fragment exactly once without processing block `i`'s native content; in
particular a span covering `[2,5)` causes blocks 2 and 3 to be skipped and
block 4 to be replaced by the AST fragment exactly once (blocks 2–4's native
markdown is never rendered: no hypothesis about it is needed). -/
theorem merge_engine_span_handling :
    (∀ (context : ConvertChostContext) (blocks : List Block) (i : Nat) (s : SpanRec)
        (rest : List SpanRec), s.endIndex ≤ i →
      processBlocksFrom context blocks i (s :: rest) =
        processBlocksFrom context blocks i rest) ∧
    (∀ (context : ConvertChostContext) (b : Block) (blocks : List Block) (i : Nat)
        (s : SpanRec) (rest : List SpanRec), s.startIndex ≤ i → i + 1 < s.endIndex →
      processBlocksFrom context (b :: blocks) i (s :: rest) =
        processBlocksFrom context blocks (i + 1) (s :: rest)) ∧
    (∀ (context : ConvertChostContext) (b : Block) (blocks : List Block) (i : Nat)
        (s : SpanRec) (rest : List SpanRec), s.startIndex < s.endIndex → i = s.endIndex - 1 →
      processBlocksFrom context (b :: blocks) i (s :: rest) =
        (do
          let html ← context.processAstFragment s.ast
          let events ← processBlocksFrom context blocks (i + 1) rest
          Except.ok (.astFragment html :: events))) ∧
    (∀ (context : ConvertChostContext) (ast : Ast) (m0 m1 m2 m3 m4 m5 h0 h1 h5 hast : String),
      context.processAstFragment ast = .ok hast →
      context.renderMarkdownBlock m0 = .ok h0 →
      context.renderMarkdownBlock m1 = .ok h1 →
      context.renderMarkdownBlock m5 = .ok h5 →
      convert_single_chost context
          ⟨[.Markdown m0, .Markdown m1, .Markdown m2, .Markdown m3, .Markdown m4,
            .Markdown m5], [⟨ast, 2, 5⟩]⟩ =
        .ok [.metaHeader, .sep, .markdownFragment h0, .markdownFragment h1,
             .astFragment hast, .markdownFragment h5] ∧
      countAstFragments [.metaHeader, .sep, .markdownFragment h0, .markdownFragment h1,
        .astFragment hast, .markdownFragment h5] = 1) := by
  refine ⟨processBlocksFrom_discard, processBlocksFrom_skip, ?_, ?_⟩
  · intro context b blocks i s rest hwf hlast
    exact processBlocksFrom_consume context b blocks i s rest hlast (by omega)
  · intro context ast m0 m1 m2 m3 m4 m5 h0 h1 h5 hast ha hm0 hm1 hm5
    constructor
    · simp [convert_single_chost, sortSpans, insertSpan, processBlocksFrom, dropPassedSpans,
        processNativeBlock, ha, hm0, hm1, hm5]
      rfl
    · rfl

/-- Witness for C1 at concrete inputs: one instance of each of the discard,
skip and consume steps, and the `[2,5)` scenario under `testContext`. -/
theorem merge_engine_span_handling_witness :
    (processBlocksFrom testContext [.Unknown] 3 [⟨.text "x", 1, 2⟩] =
      processBlocksFrom testContext [.Unknown] 3 []) ∧
    (processBlocksFrom testContext [.Unknown, .Unknown] 2 [⟨.text "x", 2, 5⟩] =
      processBlocksFrom testContext [.Unknown] 3 [⟨.text "x", 2, 5⟩]) ∧
    (processBlocksFrom testContext [.Unknown, .Unknown] 4 [⟨.text "x", 2, 5⟩] =
      (do
        let html ← testContext.processAstFragment (.text "x")
        let events ← processBlocksFrom testContext [.Unknown] 5 []
        Except.ok (.astFragment html :: events))) ∧
    (convert_single_chost testContext
        ⟨[.Markdown "m0", .Markdown "m1", .Markdown "m2", .Markdown "m3", .Markdown "m4",
          .Markdown "m5"], [⟨.text "x", 2, 5⟩]⟩ =
      .ok [.metaHeader, .sep, .markdownFragment "m0", .markdownFragment "m1",
           .astFragment "AST", .markdownFragment "m5"] ∧
     countAstFragments [.metaHeader, .sep, .markdownFragment "m0", .markdownFragment "m1",
       .astFragment "AST", .markdownFragment "m5"] = 1) :=
  ⟨merge_engine_span_handling.1 testContext [.Unknown] 3 ⟨.text "x", 1, 2⟩ [] (by decide),
   merge_engine_span_handling.2.1 testContext .Unknown [.Unknown] 2 ⟨.text "x", 2, 5⟩ []
     (by decide) (by decide),
   merge_engine_span_handling.2.2.1 testContext .Unknown [.Unknown] 4 ⟨.text "x", 2, 5⟩ []
     (by decide) (by decide),
   merge_engine_span_handling.2.2.2 testContext (.text "x") "m0" "m1" "m2" "m3" "m4" "m5"
     "m0" "m1" "m5" "AST" rfl rfl rfl rfl⟩

/-- C9: a degenerate span whose interval is empty or inverted
(`start >= end`) with `end = i + 1` is still consumed at block index `i` and
its compiled AST fragment is emitted — the consumption guard compares only
`i` against `end - 1` and never checks `start <= i`. -/
theorem degenerate_span_consumed :
    ∀ (context : ConvertChostContext) (b : Block) (blocks : List Block) (i : Nat)
      (s : SpanRec) (rest : List SpanRec),
      s.endIndex = i + 1 → s.endIndex ≤ s.startIndex →
      processBlocksFrom context (b :: blocks) i (s :: rest) =
        (do
          let html ← context.processAstFragment s.ast
          let events ← processBlocksFrom context blocks (i + 1) rest
          Except.ok (.astFragment html :: events)) := by
  intro context b blocks i s rest hend _hdeg
  exact processBlocksFrom_consume context b blocks i s rest (by omega) (by omega)

/-- Witness for C9: the inverted span `[5,3)` is consumed at block index 2
under `testContext`. -/
theorem degenerate_span_consumed_witness :
    processBlocksFrom testContext [.Unknown, .Unknown] 2 [⟨.text "x", 5, 3⟩] =
      (do
        let html ← testContext.processAstFragment (.text "x")
        let events ← processBlocksFrom testContext [.Unknown] 3 []
        Except.ok (.astFragment html :: events)) :=
  degenerate_span_consumed testContext .Unknown [.Unknown] 2 ⟨.text "x", 5, 3⟩ []
    (by decide) (by decide)

/-- C2 counterexample: in the body written by `convert_single_chost`, a
Markdown fragment and an Ask fragment are not followed by the blank-line
separator — the only separator write in this two-block post is the one
after the metadata header — contradicting the claim that every native-block
fragment is followed by the separator and only the AST-override path is
exempt. -/
theorem markdown_ask_no_separator_cex :
    convert_single_chost testContext ⟨[.Markdown "x", .Ask none "q"], []⟩ =
      .ok [.metaHeader, .sep, .markdownFragment "x", .askFragment none "q"] ∧
    countSeps [.metaHeader, .sep, .markdownFragment "x", .askFragment none "q"] = 1 :=
  ⟨rfl, rfl⟩

/-- C2 (amended): fragments from the AST-override path, `Markdown` blocks
and `Ask` blocks receive no trailing blank-line separator (those arms
`continue` past the separator write); the `Attachment` and `AttachmentRow`
arms are followed by the blank-line separator write, as is the `Unknown`
arm (which writes the separator despite emitting no fragment); the body is
preceded by the metadata header and one blank-line separator. -/
theorem fragment_separator_by_branch :
    (∀ (context : ConvertChostContext) (post : Post) (events : List OutputEvent),
      processBlocksFrom context post.blocks 0 (sortSpans post.astMapSpans) = .ok events →
      convert_single_chost context post = .ok (.metaHeader :: .sep :: events)) ∧
    (∀ (context : ConvertChostContext) (c html : String),
      context.renderMarkdownBlock c = .ok html →
      processNativeBlock context (.Markdown c) = .ok [.markdownFragment html]) ∧
    (∀ (context : ConvertChostContext) (author : Option String) (c html : String),
      context.renderMarkdownBlock c = .ok html →
      processNativeBlock context (.Ask author c) = .ok [.askFragment author html]) ∧
    (∀ (context : ConvertChostContext) (id alt : String) (w h : Nat) (t s : String),
      context.cache_attachment_thumb id = .ok t →
      context.cache_attachment_image id = .ok s →
      processNativeBlock context (.Attachment (.Image id alt w h)) =
        .ok [.imgFragment (attachment_id_to_url id) t s alt w h, .sep]) ∧
    (∀ (context : ConvertChostContext) (attachments : List Block)
        (events : List OutputEvent),
      handle_attachment_row context attachments = .ok events →
      processNativeBlock context (.AttachmentRow attachments) = .ok (events ++ [.sep])) ∧
    (∀ context : ConvertChostContext, processNativeBlock context .Unknown = .ok [.sep]) ∧
    (∀ (context : ConvertChostContext) (b : Block) (blocks : List Block) (i : Nat)
        (s : SpanRec) (rest : List SpanRec) (html : String) (events : List OutputEvent),
      i = s.endIndex - 1 → i < s.endIndex →
      context.processAstFragment s.ast = .ok html →
      processBlocksFrom context blocks (i + 1) rest = .ok events →
      processBlocksFrom context (b :: blocks) i (s :: rest) =
        .ok (.astFragment html :: events)) := by
  refine ⟨?_, ?_, ?_, ?_, ?_, ?_, ?_⟩
  · intro context post events h
    simp [convert_single_chost, h]
    rfl
  · intro context c html h
    simp [processNativeBlock, h]
    rfl
  · intro context author c html h
    simp [processNativeBlock, h]
    rfl
  · intro context id alt w h t s ht hs
    simp [processNativeBlock, handle_attachment, ht, hs]
    rfl
  · intro context attachments events h
    simp [processNativeBlock, h]
    rfl
  · intro context
    rfl
  · intro context b blocks i s rest html events hlast hlt ha hrest
    rw [processBlocksFrom_consume context b blocks i s rest hlast hlt]
    simp [ha, hrest]
    rfl

/-- Witness for C2's amended statement: each branch evaluated at a concrete
input under `testContext`. -/
theorem fragment_separator_by_branch_witness :
    (convert_single_chost testContext ⟨[.Unknown], []⟩ = .ok [.metaHeader, .sep, .sep]) ∧
    (processNativeBlock testContext (.Markdown "x") = .ok [.markdownFragment "x"]) ∧
    (processNativeBlock testContext (.Ask none "q") = .ok [.askFragment none "q"]) ∧
    (processNativeBlock testContext (.Attachment (.Image "i" "a" 1 2)) =
      .ok [.imgFragment (attachment_id_to_url "i") "thumbs/i" "images/i" "a" 1 2, .sep]) ∧
    (processNativeBlock testContext (.AttachmentRow []) = .ok ([] ++ [.sep])) ∧
    (processNativeBlock testContext .Unknown = .ok [.sep]) ∧
    (processBlocksFrom testContext [.Unknown, .Unknown] 0 [⟨.text "x", 0, 1⟩] =
      .ok [.astFragment "AST", .sep]) :=
  ⟨fragment_separator_by_branch.1 testContext ⟨[.Unknown], []⟩ [.sep] rfl,
   fragment_separator_by_branch.2.1 testContext "x" "x" rfl,
   fragment_separator_by_branch.2.2.1 testContext none "q" "q" rfl,
   fragment_separator_by_branch.2.2.2.1 testContext "i" "a" 1 2 "thumbs/i" "images/i" rfl rfl,
   fragment_separator_by_branch.2.2.2.2.1 testContext [] [] rfl,
   fragment_separator_by_branch.2.2.2.2.2.1 testContext,
   fragment_separator_by_branch.2.2.2.2.2.2 testContext .Unknown [.Unknown] 0 ⟨.text "x", 0, 1⟩
     [] "AST" [.sep] (by decide) (by decide) rfl rfl⟩

/-- A trivially satisfied mention condition cannot survive a zero count:
splitting `countMentionNode` on one element node. -/
theorem countMentionNode_element_zero {name : String} {attrs : List (String × String)}
    {children : List DomNode}
    (h : countMentionNode (.element name attrs children) = 0) :
    countMentionChildren children = 0 ∧
      ¬(name = "Mention" ∧ (findAttrValue attrs "handle").isSome = true) := by
  by_cases hp : name = "Mention" ∧ (findAttrValue attrs "handle").isSome = true
  · rw [countMentionNode, if_pos hp] at h
    exact absurd h (by omega)
  · rw [countMentionNode, if_neg hp] at h
    exact ⟨by omega, hp⟩

mutual

/-- A tree containing no expandable mention is left untouched by the
mention pass. -/
theorem expandMentions_fixpoint_node :
    ∀ node : DomNode, countMentionNode node = 0 → expandMentionsNode node = node
  | .element name attrs children, h => by
    have hc := (countMentionNode_element_zero h).1
    rw [expandMentionsNode, expandMentions_fixpoint_children children hc]
  | .text _, _ => rfl
  | .document children, h => by
    have hc : countMentionChildren children = 0 := by rw [countMentionNode] at h; exact h
    rw [expandMentionsNode, expandMentions_fixpoint_children children hc]

/-- A child list containing no expandable mention is left untouched by the
mention pass. -/
theorem expandMentions_fixpoint_children :
    ∀ kids : List DomNode, countMentionChildren kids = 0 → expandMentionsChildren kids = kids
  | [], _ => rfl
  | .element name attrs children :: rest, h => by
    have h1 : countMentionNode (.element name attrs children) = 0 := by
      rw [countMentionChildren] at h; omega
    have h2 : countMentionChildren rest = 0 := by
      rw [countMentionChildren] at h; omega
    have hc := (countMentionNode_element_zero h1).1
    have hcond := (countMentionNode_element_zero h1).2
    rw [expandMentionsChildren]
    by_cases hname : name = "Mention"
    · have hfind : findAttrValue attrs "handle" = none := by
        rcases hfind2 : findAttrValue attrs "handle" with _ | v
        · rfl
        · exact absurd ⟨hname, by rw [hfind2]; rfl⟩ hcond
      rw [if_pos hname, hfind]
      rw [expandMentions_fixpoint_children children hc,
        expandMentions_fixpoint_children rest h2]
    · rw [if_neg hname]
      rw [expandMentions_fixpoint_children children hc,
        expandMentions_fixpoint_children rest h2]
  | .text v :: rest, h => by
    have h2 : countMentionChildren rest = 0 := by
      rw [countMentionChildren] at h; omega
    rw [expandMentionsChildren, expandMentions_fixpoint_node (.text v) rfl,
      expandMentions_fixpoint_children rest h2]
    intro name attrs children hcontra
    cases hcontra
  | .document children :: rest, h => by
    have h1 : countMentionNode (.document children) = 0 := by
      rw [countMentionChildren] at h; omega
    have h2 : countMentionChildren rest = 0 := by
      rw [countMentionChildren] at h; omega
    rw [expandMentionsChildren, expandMentions_fixpoint_node (.document children) h1,
      expandMentions_fixpoint_children rest h2]
    intro name attrs children2 hcontra
    cases hcontra

end

/-- The mention pass replaces each child with exactly one child. -/
theorem expandMentionsChildren_length :
    ∀ kids : List DomNode, (expandMentionsChildren kids).length = kids.length
  | [] => rfl
  | .element name attrs children :: rest => by
    rw [expandMentionsChildren]
    simp [expandMentionsChildren_length rest]
  | .text v :: rest => by
    rw [expandMentionsChildren]
    · simp [expandMentionsChildren_length rest]
    · intro name attrs children hcontra
      cases hcontra
  | .document children :: rest => by
    rw [expandMentionsChildren]
    · simp [expandMentionsChildren_length rest]
    · intro name attrs children2 hcontra
      cases hcontra

/-- C3 counterexample: a `Mention` nested inside another `Mention`'s
children is not expanded — the replacement anchor keeps the inner `Mention`
element verbatim, so exactly one expandable mention survives the pass —
contradicting the claim that the pass recurses into the descendants of
newly created replacement elements' children. -/
theorem nested_mention_not_expanded_cex :
    expandMentionsNode
        (.document [.element "Mention" [("handle", "alice")]
          [.element "Mention" [("handle", "bob")] []]]) =
      .document [.element "a" [("href", mention_href "alice")]
        [.element "Mention" [("handle", "bob")] []]] ∧
    countMentionNode
        (.document [.element "a" [("href", mention_href "alice")]
          [.element "Mention" [("handle", "bob")] []]]) = 1 :=
  ⟨rfl, rfl⟩

/-- C3 (amended): the mention pass replaces each element named `Mention`
carrying a `handle` attribute with an anchor whose `href` is the canonical
profile URL and whose children are the mention's children moved verbatim,
preserves the relative order (and number) of siblings, recurses into the
children of every untouched node, and leaves mention-free trees unchanged —
but it does not revisit the children of newly created replacement elements,
so a `Mention` nested inside a replaced `Mention`'s children stays
unexpanded (the replacement equation hands the children over verbatim,
without applying the pass to them). -/
theorem mention_expansion_behavior :
    (∀ (attrs : List (String × String)) (children rest : List DomNode) (handle : String),
      findAttrValue attrs "handle" = some handle →
      expandMentionsChildren (.element "Mention" attrs children :: rest) =
        .element "a" [("href", mention_href handle)] children
          :: expandMentionsChildren rest) ∧
    (∀ (name : String) (attrs : List (String × String)) (children rest : List DomNode),
      name ≠ "Mention" →
      expandMentionsChildren (.element name attrs children :: rest) =
        .element name attrs (expandMentionsChildren children)
          :: expandMentionsChildren rest) ∧
    (∀ (attrs : List (String × String)) (children rest : List DomNode),
      findAttrValue attrs "handle" = none →
      expandMentionsChildren (.element "Mention" attrs children :: rest) =
        .element "Mention" attrs (expandMentionsChildren children)
          :: expandMentionsChildren rest) ∧
    (∀ (v : String) (rest : List DomNode),
      expandMentionsChildren (.text v :: rest) = .text v :: expandMentionsChildren rest) ∧
    (∀ kids : List DomNode, (expandMentionsChildren kids).length = kids.length) ∧
    (∀ node : DomNode, countMentionNode node = 0 → expandMentionsNode node = node) := by
  refine ⟨?_, ?_, ?_, ?_, expandMentionsChildren_length, expandMentions_fixpoint_node⟩
  · intro attrs children rest handle hfind
    rw [expandMentionsChildren, if_pos rfl, hfind]
  · intro name attrs children rest hname
    rw [expandMentionsChildren, if_neg hname]
  · intro attrs children rest hfind
    rw [expandMentionsChildren, if_pos rfl, hfind]
  · intro v rest
    rw [expandMentionsChildren, expandMentionsNode]
    intro name attrs children hcontra
    cases hcontra

/-- Witness for C3's amended statement: each clause evaluated at a concrete
tree. -/
theorem mention_expansion_behavior_witness :
    (expandMentionsChildren [.element "Mention" [("handle", "alice")] [.text "hi"]] =
      [.element "a" [("href", mention_href "alice")] [.text "hi"]]) ∧
    (expandMentionsChildren [.element "p" [] [.text "hi"]] =
      [.element "p" [] [.text "hi"]]) ∧
    (expandMentionsChildren [.element "Mention" [("rel", "x")] []] =
      [.element "Mention" [("rel", "x")] []]) ∧
    (expandMentionsChildren [.text "t"] = [.text "t"]) ∧
    ((expandMentionsChildren [.text "t", .element "Mention" [("handle", "a")] []]).length = 2) ∧
    (expandMentionsNode (.document [.element "p" [] [.text "hi"]]) =
      .document [.element "p" [] [.text "hi"]]) := by
  refine ⟨?_, ?_, ?_, ?_, ?_, ?_⟩
  · have h := mention_expansion_behavior.1 [("handle", "alice")] [.text "hi"] [] "alice" rfl
    rw [h]; rfl
  · have h := mention_expansion_behavior.2.1 "p" [] [.text "hi"] [] (by decide)
    rw [h]; rfl
  · have h := mention_expansion_behavior.2.2.1 [("rel", "x")] [] [] rfl
    rw [h]; rfl
  · have h := mention_expansion_behavior.2.2.2.1 "t" []
    rw [h]; rfl
  · exact mention_expansion_behavior.2.2.2.2.1 [.text "t", .element "Mention" [("handle", "a")] []]
  · exact mention_expansion_behavior.2.2.2.2.2 (.document [.element "p" [] [.text "hi"]]) rfl

/-- `setFirstAttr` preserves every attribute name in place, and every
attribute whose name differs from the targeted one is kept with its value
unchanged. -/
theorem setFirstAttr_preserves :
    ∀ (attrs : List (String × String)) (n v : String),
      List.Forall₂ (fun p q : String × String => p.1 = q.1 ∧ (p.1 ≠ n → q = p))
        attrs (setFirstAttr attrs n v)
  | [], _, _ => List.Forall₂.nil
  | (a, b) :: rest, n, v => by
    rw [setFirstAttr]
    by_cases ha : a = n
    · rw [if_pos ha]
      exact List.Forall₂.cons ⟨rfl, fun hne => absurd ha hne⟩
        (List.forall₂_same.mpr fun x _ => ⟨rfl, fun _ => rfl⟩)
    · rw [if_neg ha]
      exact List.Forall₂.cons ⟨rfl, fun _ => rfl⟩ (setFirstAttr_preserves rest n v)

/-- C4: the attachment URL rewrite pass rewrites an attribute value exactly
when it is the `src` of an `<img>` or the `href` of an `<a>` and the value
is recognised as a canonical attachment-redirect URL yielding an id; the
value becomes the cache-resolved full-variant URL and the original is
recorded as `data-cohost-src` / `data-cohost-href`; every other attribute
value passes through unchanged (non-candidate elements keep their attribute
list verbatim, unmatched candidate values are untouched, and `setFirstAttr`
touches no attribute other than the first with the candidate name; the
always-appended `loading="lazy"` on `<img>` is a new attribute, not a
rewritten value). -/
theorem attachment_url_rewrite_exact :
    (∀ (cache : String → Except ConvertError String) (urlToId : String → Option String)
        (name : String) (attrs : List (String × String)),
      name ≠ "img" → name ≠ "a" →
      rewriteElementAttrs cache urlToId name attrs = .ok attrs) ∧
    (∀ (cache : String → Except ConvertError String) (urlToId : String → Option String)
        (attrs : List (String × String)) (oldUrl id newUrl : String),
      findAttrValue attrs "src" = some oldUrl →
      urlToId oldUrl = some id →
      cache id = .ok newUrl →
      rewriteElementAttrs cache urlToId "img" attrs =
        .ok (setFirstAttr attrs "src" newUrl ++
          [("data-cohost-src", oldUrl), ("loading", "lazy")])) ∧
    (∀ (cache : String → Except ConvertError String) (urlToId : String → Option String)
        (attrs : List (String × String)) (oldUrl id newUrl : String),
      findAttrValue attrs "href" = some oldUrl →
      urlToId oldUrl = some id →
      cache id = .ok newUrl →
      rewriteElementAttrs cache urlToId "a" attrs =
        .ok (setFirstAttr attrs "href" newUrl ++ [("data-cohost-href", oldUrl)])) ∧
    (∀ (cache : String → Except ConvertError String) (urlToId : String → Option String)
        (attrs : List (String × String)) (oldUrl : String),
      findAttrValue attrs "src" = some oldUrl →
      urlToId oldUrl = none →
      rewriteElementAttrs cache urlToId "img" attrs =
        .ok (attrs ++ [("loading", "lazy")])) ∧
    (∀ (cache : String → Except ConvertError String) (urlToId : String → Option String)
        (attrs : List (String × String)) (oldUrl : String),
      findAttrValue attrs "href" = some oldUrl →
      urlToId oldUrl = none →
      rewriteElementAttrs cache urlToId "a" attrs = .ok attrs) ∧
    (∀ (cache : String → Except ConvertError String) (urlToId : String → Option String)
        (attrs : List (String × String)),
      findAttrValue attrs "src" = none →
      rewriteElementAttrs cache urlToId "img" attrs =
        .ok (attrs ++ [("loading", "lazy")])) ∧
    (∀ (cache : String → Except ConvertError String) (urlToId : String → Option String)
        (attrs : List (String × String)),
      findAttrValue attrs "href" = none →
      rewriteElementAttrs cache urlToId "a" attrs = .ok attrs) ∧
    (∀ (attrs : List (String × String)) (n v : String),
      List.Forall₂ (fun p q : String × String => p.1 = q.1 ∧ (p.1 ≠ n → q = p))
        attrs (setFirstAttr attrs n v)) ∧
    (∀ (cache : String → Except ConvertError String) (urlToId : String → Option String)
        (name : String) (attrs : List (String × String)) (children children2 : List DomNode),
      name ≠ "img" → name ≠ "a" →
      rewriteUrlsChildren cache urlToId children = .ok children2 →
      rewriteUrlsNode cache urlToId (.element name attrs children) =
        .ok (.element name attrs children2)) := by
  have hother : ∀ (cache : String → Except ConvertError String)
      (urlToId : String → Option String) (name : String) (attrs : List (String × String)),
      name ≠ "img" → name ≠ "a" →
      rewriteElementAttrs cache urlToId name attrs = .ok attrs := by
    intro cache urlToId name attrs h1 h2
    simp [rewriteElementAttrs, h1, h2]
  refine ⟨hother, ?_, ?_, ?_, ?_, ?_, ?_, setFirstAttr_preserves, ?_⟩
  · intro cache urlToId attrs oldUrl id newUrl hfind hurl hcache
    simp [rewriteElementAttrs, hfind, hurl, hcache]
    show Except.ok ((setFirstAttr attrs "src" newUrl ++ [("data-cohost-src", oldUrl)])
      ++ [("loading", "lazy")]) = _
    rw [List.append_assoc]
    rfl
  · intro cache urlToId attrs oldUrl id newUrl hfind hurl hcache
    simp [rewriteElementAttrs, hfind, hurl, hcache]
    rfl
  · intro cache urlToId attrs oldUrl hfind hurl
    simp [rewriteElementAttrs, hfind, hurl]
    rfl
  · intro cache urlToId attrs oldUrl hfind hurl
    simp [rewriteElementAttrs, hfind, hurl]
    rfl
  · intro cache urlToId attrs hfind
    simp [rewriteElementAttrs, hfind]
    rfl
  · intro cache urlToId attrs hfind
    simp [rewriteElementAttrs, hfind]
    rfl
  · intro cache urlToId name attrs children children2 h1 h2 hchildren
    rw [rewriteUrlsNode, hother cache urlToId name attrs h1 h2, hchildren]
    rfl

/-- Witness for C4 at concrete inputs: the canonical test id of the
repository, rewritten inside `src`/`href`, an untouched foreign URL, and
non-candidate elements. -/
theorem attachment_url_rewrite_exact_witness :
    (rewriteElementAttrs (fun id => .ok ("images/" ++ id)) attachment_url_to_id "p"
      [("class", "c")] = .ok [("class", "c")]) ∧
    (rewriteElementAttrs (fun id => .ok ("images/" ++ id)) attachment_url_to_id "img"
      [("alt", "x"), ("src", "https://cohost.org/rc/attachment-redirect/44444444")] =
      .ok [("alt", "x"), ("src", "images/44444444"),
        ("data-cohost-src", "https://cohost.org/rc/attachment-redirect/44444444"),
        ("loading", "lazy")]) ∧
    (rewriteElementAttrs (fun id => .ok ("images/" ++ id)) attachment_url_to_id "a"
      [("href", "https://cohost.org/rc/attachment-redirect/44444444")] =
      .ok [("href", "images/44444444"),
        ("data-cohost-href", "https://cohost.org/rc/attachment-redirect/44444444")]) ∧
    (rewriteElementAttrs (fun id => .ok ("images/" ++ id)) attachment_url_to_id "img"
      [("src", "https://example.org/x.png")] =
      .ok [("src", "https://example.org/x.png"), ("loading", "lazy")]) ∧
    (rewriteElementAttrs (fun id => .ok ("images/" ++ id)) attachment_url_to_id "a"
      [("href", "https://example.org/x.png")] =
      .ok [("href", "https://example.org/x.png")]) ∧
    (rewriteElementAttrs (fun id => .ok ("images/" ++ id)) attachment_url_to_id "img"
      [("alt", "x")] = .ok [("alt", "x"), ("loading", "lazy")]) ∧
    (rewriteElementAttrs (fun id => .ok ("images/" ++ id)) attachment_url_to_id "a"
      [("rel", "me")] = .ok [("rel", "me")]) ∧
    (List.Forall₂ (fun p q : String × String => p.1 = q.1 ∧ (p.1 ≠ "src" → q = p))
      [("alt", "x"), ("src", "u")] (setFirstAttr [("alt", "x"), ("src", "u")] "src" "v")) ∧
    (rewriteUrlsNode (fun id => .ok ("images/" ++ id)) attachment_url_to_id
      (.element "p" [("class", "c")] [.text "t"]) =
      .ok (.element "p" [("class", "c")] [.text "t"])) := by
  refine ⟨?_, ?_, ?_, ?_, ?_, ?_, ?_, ?_, ?_⟩
  · exact attachment_url_rewrite_exact.1 (fun id => .ok ("images/" ++ id))
      attachment_url_to_id "p" [("class", "c")] (by decide) (by decide)
  · have h := attachment_url_rewrite_exact.2.1 (fun id => .ok ("images/" ++ id))
      attachment_url_to_id
      [("alt", "x"), ("src", "https://cohost.org/rc/attachment-redirect/44444444")]
      "https://cohost.org/rc/attachment-redirect/44444444" "44444444" "images/44444444"
      rfl rfl rfl
    rw [h]; rfl
  · have h := attachment_url_rewrite_exact.2.2.1 (fun id => .ok ("images/" ++ id))
      attachment_url_to_id
      [("href", "https://cohost.org/rc/attachment-redirect/44444444")]
      "https://cohost.org/rc/attachment-redirect/44444444" "44444444" "images/44444444"
      rfl rfl rfl
    rw [h]; rfl
  · exact attachment_url_rewrite_exact.2.2.2.1 (fun id => .ok ("images/" ++ id))
      attachment_url_to_id [("src", "https://example.org/x.png")]
      "https://example.org/x.png" rfl rfl
  · exact attachment_url_rewrite_exact.2.2.2.2.1 (fun id => .ok ("images/" ++ id))
      attachment_url_to_id [("href", "https://example.org/x.png")]
      "https://example.org/x.png" rfl rfl
  · exact attachment_url_rewrite_exact.2.2.2.2.2.1 (fun id => .ok ("images/" ++ id))
      attachment_url_to_id [("alt", "x")] rfl
  · exact attachment_url_rewrite_exact.2.2.2.2.2.2.1 (fun id => .ok ("images/" ++ id))
      attachment_url_to_id [("rel", "me")] rfl
  · exact attachment_url_rewrite_exact.2.2.2.2.2.2.2.1 [("alt", "x"), ("src", "u")] "src" "v"
  · exact attachment_url_rewrite_exact.2.2.2.2.2.2.2.2 (fun id => .ok ("images/" ++ id))
      attachment_url_to_id "p" [("class", "c")] [.text "t"] [.text "t"]
      (by decide) (by decide) rfl

/-- `create_dir_all` does nothing when the directory already exists. -/
theorem createDirAll_of_exists {fs : FsState} {path : String} {l : List String}
    (h : readDir fs path = some l) : createDirAll fs path = fs := by
  unfold readDir at h
  unfold createDirAll
  rw [h]
  rfl

/-- The cache-hit branch of `cached_get_attachment`: a listed, readable
first entry short-circuits with no network traffic and no state change. -/
theorem cached_get_attachment_hit {fs : FsState} {net : Network} {url path : String}
    {transform : Option (String → String)} {name : String} {rest : List String}
    {bytes : List Nat} (hdir : readDir fs path = some (name :: rest))
    (hopen : openFileState fs (path ++ "/" ++ name) = some (.content bytes)) :
    cached_get_attachment fs net url path transform = (.ok (path ++ "/" ++ name, fs), []) := by
  rw [cached_get_attachment, hdir]
  dsimp only
  rw [hopen]

/-- Looking up the written directory after `writeFile`'s listing update. -/
theorem lookup_map_update (dirs : List (String × List String)) (dir name : String) :
    List.lookup dir (dirs.map fun entry =>
      if entry.1 = dir then
        (entry.1, if entry.2.contains name then entry.2 else entry.2 ++ [name])
      else entry) =
    (List.lookup dir dirs).map fun l => if l.contains name then l else l ++ [name] := by
  induction dirs with
  | nil => rfl
  | cons head tail ih =>
    obtain ⟨k, v⟩ := head
    by_cases hk : k = dir
    · subst hk
      simp only [List.map_cons, if_true]
      simp only [List.lookup, beq_self_eq_true]
      rfl
    · simp only [List.map_cons]
      rw [if_neg hk]
      simp only [List.lookup,
        show (dir == k) = false from beq_eq_false_iff_ne.mpr (Ne.symm hk)]
      exact ih

/-- `writeFile` appends the new name to the target directory's listing
(when not already present). -/
theorem readDir_writeFile {fs : FsState} {dir name : String} {bytes : List Nat}
    {l : List String} (h : readDir fs dir = some l) :
    readDir (writeFile fs dir name bytes) dir =
      some (if l.contains name then l else l ++ [name]) := by
  unfold readDir at h ⊢
  unfold writeFile
  dsimp only
  rw [lookup_map_update, h]
  rfl

/-- The full-variant URL computed from a non-empty directory listing. -/
theorem image_url_of_listing {fs : FsState} {id root name : String} {rest : List String}
    (h : readDir fs (root ++ "/" ++ id) = some (name :: rest)) :
    cached_attachment_image_url fs id root = .ok ("attachments/" ++ id ++ "/" ++ name) := by
  unfold cached_attachment_image_url
  dsimp only
  rw [h]

/-- The thumbnail-variant URL computed from a non-empty directory listing. -/
theorem thumb_url_of_listing {fs : FsState} {id troot name : String} {rest : List String}
    (h : readDir fs (troot ++ "/" ++ id) = some (name :: rest)) :
    cached_attachment_thumb_url fs id troot =
      .ok ("attachments/thumbs/" ++ id ++ "/" ++ name) := by
  unfold cached_attachment_thumb_url
  dsimp only
  rw [h]

/-- A populated, readable cache entry makes `cache_attachment_image` a pure
lookup: no network request, no state change, URL from the listing. -/
theorem cache_attachment_image_hit {fs : FsState} {net : Network} {id root name : String}
    {rest : List String} {bytes : List Nat}
    (hdir : readDir fs (root ++ "/" ++ id) = some (name :: rest))
    (hopen : openFileState fs (root ++ "/" ++ id ++ "/" ++ name) = some (.content bytes)) :
    cache_attachment_image fs net id root =
      (.ok ("attachments/" ++ id ++ "/" ++ name, fs), []) := by
  unfold cache_attachment_image
  dsimp only
  rw [createDirAll_of_exists hdir, cached_get_attachment_hit hdir hopen]
  dsimp only
  rw [image_url_of_listing hdir]

/-- C5: attachment caching is idempotent — when the id's cache directory
exists and its first listed entry is a readable file, a call to
`cache_attachment_image` performs no network request (the cache-hit branch)
and returns the same resolved relative URL as the call that populated the
cache, leaving the filesystem untouched. -/
theorem cache_idempotent :
    ∀ (fs0 fs1 : FsState) (net : Network) (id root u : String) (reqs : List NetReq)
      (name : String) (rest : List String) (bytes : List Nat),
      cache_attachment_image fs0 net id root = (.ok (u, fs1), reqs) →
      readDir fs1 (root ++ "/" ++ id) = some (name :: rest) →
      openFileState fs1 (root ++ "/" ++ id ++ "/" ++ name) = some (.content bytes) →
      cache_attachment_image fs1 net id root = (.ok (u, fs1), []) := by
  intro fs0 fs1 net id root u reqs name rest bytes hfirst hdir hopen
  have hu : cached_attachment_image_url fs1 id root = .ok u := by
    unfold cache_attachment_image at hfirst
    dsimp only at hfirst
    split at hfirst
    · simp at hfirst
    · split at hfirst
      · simp at hfirst
      · rename_i heq2
        injection hfirst with ha hb
        injection ha with hc
        injection hc with hd he
        subst hd
        subst he
        exact heq2
  have hter : cached_attachment_image_url fs1 id root =
      .ok ("attachments/" ++ id ++ "/" ++ name) := image_url_of_listing hdir
  rw [hu] at hter
  injection hter with huu
  rw [cache_attachment_image_hit hdir hopen, huu]

/-- Witness for C5: a first call on an empty cache directory downloads and
writes the file; the second call on the resulting state is a pure cache
hit returning the identical URL with no requests. -/
theorem cache_idempotent_witness :
    cache_attachment_image
        (writeFile { dirs := [("root/id1", [])], files := [] } "root/id1"
          "file name.png" [9])
        netRedir "id1" "root" =
      (.ok ("attachments/id1/file name.png",
        writeFile { dirs := [("root/id1", [])], files := [] } "root/id1"
          "file name.png" [9]), []) :=
  cache_idempotent { dirs := [("root/id1", [])], files := [] }
    (writeFile { dirs := [("root/id1", [])], files := [] } "root/id1" "file name.png" [9])
    netRedir "id1" "root" "attachments/id1/file name.png"
    [.head (attachment_id_to_url "id1"),
     .get "https://static/up%20load/file%20name.png"]
    "file name.png" [] [9] (by rfl) (by rfl) (by rfl)

/-- C6: on a thumbnail-variant cache miss, the fixed `?width=675` query
parameter is appended to the redirect target (the probe itself hits the
untransformed canonical URL), the download fetches that transformed URL,
and the cached file is named after the percent-decoded final path segment
of the untransformed redirect target. -/
theorem thumb_transform_on_redirect_target :
    ∀ (fs : FsState) (net : Network) (id troot t : String) (pre fnEnc : List Char),
      readDir fs (troot ++ "/" ++ id) = some [] →
      net.probe (attachment_id_to_url id) = some t →
      rsplitOnceSlash t.data = some (pre, fnEnc) →
      cache_attachment_thumb fs net id troot =
        (.ok ("attachments/thumbs/" ++ id ++ "/" ++ percentDecode (String.mk fnEnc),
          writeFile fs (troot ++ "/" ++ id) (percentDecode (String.mk fnEnc))
            (net.download (t ++ "?width=675"))),
         [.head (attachment_id_to_url id), .get (t ++ "?width=675")]) := by
  intro fs net id troot t pre fnEnc hdir hp hs
  have hmiss : cached_get_attachment fs net (attachment_id_to_url id) (troot ++ "/" ++ id)
      (some thumbTransform) =
      (.ok ((troot ++ "/" ++ id) ++ "/" ++ percentDecode (String.mk fnEnc),
        writeFile fs (troot ++ "/" ++ id) (percentDecode (String.mk fnEnc))
          (net.download (t ++ "?width=675"))),
       [.head (attachment_id_to_url id), .get (t ++ "?width=675")]) := by
    rw [cached_get_attachment, hdir]
    dsimp only
    rw [cached_get_attachment_miss, hp]
    dsimp only
    rw [hs]
    rfl
  have hlist : readDir (writeFile fs (troot ++ "/" ++ id) (percentDecode (String.mk fnEnc))
      (net.download (t ++ "?width=675"))) (troot ++ "/" ++ id) =
      some [percentDecode (String.mk fnEnc)] := by
    rw [readDir_writeFile hdir]
    rfl
  unfold cache_attachment_thumb
  dsimp only
  rw [createDirAll_of_exists hdir, hmiss]
  dsimp only
  rw [thumb_url_of_listing hlist]

/-- Witness for C6: a concrete thumbnail miss against `netRedir`, checking
the transformed GET URL and the percent-decoded cached filename. -/
theorem thumb_transform_on_redirect_target_witness :
    cache_attachment_thumb fsEmptyDir netRedir "id1" "troot" =
      (.ok ("attachments/thumbs/id1/file name.png",
        writeFile fsEmptyDir "troot/id1" "file name.png" [9]),
       [.head (attachment_id_to_url "id1"),
        .get "https://static/up%20load/file%20name.png?width=675"]) := by
  have h := thumb_transform_on_redirect_target fsEmptyDir netRedir "id1" "troot"
    "https://static/up%20load/file%20name.png"
    "https://static/up%20load".data "file%20name.png".data (by rfl) (by rfl) (by rfl)
  rw [h]
  rfl

/-- C7: a redirect probe without a `Location` header is fatal for that
attachment: `cached_get_attachment` errors after its single probe request
(no retry, no download), `cache_attachment_thumb` propagates that error,
and a failing cache call inside an `Attachment` block makes
`convert_single_chost` return the error, aborting the post's conversion. -/
theorem missing_location_fatal :
    (∀ (fs : FsState) (net : Network) (url path : String)
        (transform : Option (String → String)),
      readDir fs path = some [] → net.probe url = none →
      cached_get_attachment fs net url path transform =
        (.error (.expectedRedirect url), [.head url])) ∧
    (∀ (fs : FsState) (net : Network) (id troot : String),
      readDir fs (troot ++ "/" ++ id) = some [] →
      net.probe (attachment_id_to_url id) = none →
      cache_attachment_thumb fs net id troot =
        (.error (.expectedRedirect (attachment_id_to_url id)),
         [.head (attachment_id_to_url id)])) ∧
    (∀ (context : ConvertChostContext) (id alt : String) (w h : Nat)
        (blocks : List Block) (e : ConvertError),
      context.cache_attachment_thumb id = .error e →
      convert_single_chost context ⟨.Attachment (.Image id alt w h) :: blocks, []⟩ =
        .error e) := by
  have hbase : ∀ (fs : FsState) (net : Network) (url path : String)
      (transform : Option (String → String)),
      readDir fs path = some [] → net.probe url = none →
      cached_get_attachment fs net url path transform =
        (.error (.expectedRedirect url), [.head url]) := by
    intro fs net url path transform hdir hp
    rw [cached_get_attachment, hdir]
    dsimp only
    rw [cached_get_attachment_miss, hp]
  refine ⟨hbase, ?_, ?_⟩
  · intro fs net id troot hdir hp
    unfold cache_attachment_thumb
    dsimp only
    rw [createDirAll_of_exists hdir, hbase fs net (attachment_id_to_url id)
      (troot ++ "/" ++ id) (some thumbTransform) hdir hp]
  · intro context id alt w h blocks e hthumb
    simp [convert_single_chost, sortSpans, processBlocksFrom, dropPassedSpans,
      processNativeBlock, handle_attachment, hthumb]
    rfl

/-- Witness for C7: `netNone` never yields a `Location` header; one probe,
an error, and an aborted conversion. -/
theorem missing_location_fatal_witness :
    (cached_get_attachment fsEmptyDir netNone "u" "troot/id1" none =
      (.error (.expectedRedirect "u"), [.head "u"])) ∧
    (cache_attachment_thumb fsEmptyDir netNone "id1" "troot" =
      (.error (.expectedRedirect (attachment_id_to_url "id1")),
       [.head (attachment_id_to_url "id1")])) ∧
    (convert_single_chost
        { testContext with
            cache_attachment_thumb := fun _ => .error (.expectedRedirect "u") }
        ⟨[.Attachment (.Image "id1" "alt" 1 2)], []⟩ =
      .error (.expectedRedirect "u")) :=
  ⟨missing_location_fatal.1 fsEmptyDir netNone "u" "troot/id1" none (by rfl) (by rfl),
   missing_location_fatal.2.1 fsEmptyDir netNone "id1" "troot" (by rfl) (by rfl),
   missing_location_fatal.2.2
     { testContext with cache_attachment_thumb := fun _ => .error (.expectedRedirect "u") }
     "id1" "alt" 1 2 [] (.expectedRedirect "u") (by rfl)⟩

/-- C8: the resolved relative URL of a populated cache entry is derived
deterministically from the variant root, the id and the first listed file
name: `attachments/<id>/<name>` for the full variant and
`attachments/thumbs/<id>/<name>` for the thumbnail variant. -/
theorem cached_url_derivation :
    (∀ (fs : FsState) (id root name : String) (rest : List String),
      readDir fs (root ++ "/" ++ id) = some (name :: rest) →
      cached_attachment_image_url fs id root =
        .ok ("attachments/" ++ id ++ "/" ++ name)) ∧
    (∀ (fs : FsState) (id troot name : String) (rest : List String),
      readDir fs (troot ++ "/" ++ id) = some (name :: rest) →
      cached_attachment_thumb_url fs id troot =
        .ok ("attachments/thumbs/" ++ id ++ "/" ++ name)) :=
  ⟨fun _ _ _ _ _ h => image_url_of_listing h, fun _ _ _ _ _ h => thumb_url_of_listing h⟩

/-- Witness for C8: concrete populated directories for both variants. -/
theorem cached_url_derivation_witness :
    cached_attachment_image_url fsHit "id1" "root" =
      .ok ("attachments/" ++ "id1" ++ "/" ++ "pic.png") ∧
    cached_attachment_thumb_url
        { dirs := [("troot/id1", ["pic.png"])],
          files := [("troot/id1/pic.png", .content [1])] } "id1" "troot" =
      .ok ("attachments/thumbs/" ++ "id1" ++ "/" ++ "pic.png") :=
  ⟨cached_url_derivation.1 fsHit "id1" "root" "pic.png" [] (by rfl),
   cached_url_derivation.2
     { dirs := [("troot/id1", ["pic.png"])],
       files := [("troot/id1/pic.png", .content [1])] }
     "id1" "troot" "pic.png" [] (by rfl)⟩

/-- C10: when the cache directory lists a first entry whose file cannot be
opened, `cached_get_attachment` silently falls through to the miss path
(redirect probe plus full re-download) instead of returning an error; only
a read failure on an already opened cached file propagates as an error. -/
theorem unopenable_entry_cache_miss :
    (∀ (fs : FsState) (net : Network) (url path : String)
        (transform : Option (String → String)) (name : String) (rest : List String),
      readDir fs path = some (name :: rest) →
      openFileState fs (path ++ "/" ++ name) = some .unopenable →
      cached_get_attachment fs net url path transform =
        cached_get_attachment_miss fs net url path transform) ∧
    (∀ (fs : FsState) (net : Network) (url path : String)
        (transform : Option (String → String)) (name : String) (rest : List String),
      readDir fs path = some (name :: rest) →
      openFileState fs (path ++ "/" ++ name) = none →
      cached_get_attachment fs net url path transform =
        cached_get_attachment_miss fs net url path transform) ∧
    (∀ (fs : FsState) (net : Network) (url path name : String) (rest : List String)
        (t : String) (pre fnEnc : List Char),
      readDir fs path = some (name :: rest) →
      openFileState fs (path ++ "/" ++ name) = some .unopenable →
      net.probe url = some t →
      rsplitOnceSlash t.data = some (pre, fnEnc) →
      cached_get_attachment fs net url path none =
        (.ok (path ++ "/" ++ percentDecode (String.mk fnEnc),
          writeFile fs path (percentDecode (String.mk fnEnc)) (net.download t)),
         [.head url, .get t])) ∧
    (∀ (fs : FsState) (net : Network) (url path : String)
        (transform : Option (String → String)) (name : String) (rest : List String),
      readDir fs path = some (name :: rest) →
      openFileState fs (path ++ "/" ++ name) = some .unreadable →
      cached_get_attachment fs net url path transform =
        (.error (.readError (path ++ "/" ++ name)), [])) := by
  have hopen : ∀ (fs : FsState) (net : Network) (url path : String)
      (transform : Option (String → String)) (name : String) (rest : List String),
      readDir fs path = some (name :: rest) →
      openFileState fs (path ++ "/" ++ name) = some .unopenable →
      cached_get_attachment fs net url path transform =
        cached_get_attachment_miss fs net url path transform := by
    intro fs net url path transform name rest hdir ho
    rw [cached_get_attachment, hdir]
    dsimp only
    rw [ho]
  refine ⟨hopen, ?_, ?_, ?_⟩
  · intro fs net url path transform name rest hdir ho
    rw [cached_get_attachment, hdir]
    dsimp only
    rw [ho]
  · intro fs net url path name rest t pre fnEnc hdir ho hp hs
    rw [hopen fs net url path none name rest hdir ho]
    rw [cached_get_attachment_miss, hp]
    dsimp only
    rw [hs]
  · intro fs net url path transform name rest hdir ho
    rw [cached_get_attachment, hdir]
    dsimp only
    rw [ho]

/-- Witness for C10: an unopenable first entry triggers a re-download, a
missing entry triggers the miss path, and an unreadable entry errors with
no network traffic. -/
theorem unopenable_entry_cache_miss_witness :
    (cached_get_attachment fsUnopenable netRedir "u" "root/id1" none =
      cached_get_attachment_miss fsUnopenable netRedir "u" "root/id1" none) ∧
    (cached_get_attachment { dirs := [("root/id1", ["pic.png"])], files := [] }
        netRedir "u" "root/id1" none =
      cached_get_attachment_miss { dirs := [("root/id1", ["pic.png"])], files := [] }
        netRedir "u" "root/id1" none) ∧
    (cached_get_attachment fsUnopenable netRedir "u" "root/id1" none =
      (.ok ("root/id1" ++ "/" ++ percentDecode (String.mk "file%20name.png".data),
        writeFile fsUnopenable "root/id1" (percentDecode (String.mk "file%20name.png".data))
          (netRedir.download "https://static/up%20load/file%20name.png")),
       [.head "u", .get "https://static/up%20load/file%20name.png"])) ∧
    (cached_get_attachment fsUnreadable netRedir "u" "root/id1" none =
      (.error (.readError ("root/id1" ++ "/" ++ "pic.png")), [])) :=
  ⟨unopenable_entry_cache_miss.1 fsUnopenable netRedir "u" "root/id1" none "pic.png" []
     (by rfl) (by rfl),
   unopenable_entry_cache_miss.2.1 { dirs := [("root/id1", ["pic.png"])], files := [] }
     netRedir "u" "root/id1" none "pic.png" [] (by rfl) (by rfl),
   unopenable_entry_cache_miss.2.2.1 fsUnopenable netRedir "u" "root/id1" "pic.png" []
     "https://static/up%20load/file%20name.png"
     "https://static/up%20load".data "file%20name.png".data
     (by rfl) (by rfl) (by rfl) (by rfl),
   unopenable_entry_cache_miss.2.2.2 fsUnreadable netRedir "u" "root/id1" none "pic.png" []
     (by rfl) (by rfl)⟩

end Autost
